import Mathlib

/-!
Shallow embedding of the assessment-analytics core of the repository
(`src/data_processor.py`): the schema validator (`DataProcessor._validate_data`),
the query engine (`get_entities`, `get_groups`, `get_assessment_data`,
`get_progress`, `get_capability_scores`, `get_criteria_distribution`,
`get_notes`, `get_assessment_dates`, `get_template_names`) and the report
prompt synthesizer (`generate_analysis_prompt`).

Modelling conventions:
- a pandas `DataFrame` holding one validated record per row is a `List Record`;
- a raw, not yet validated frame is represented by its column-name list for the
  validator (which only inspects `self.data.columns`);
- `NaN` notes are `Option.none`; ratings are `Rat` (exact in all scenarios used);
- rebuilding a frame from `to_dict('records')` output loses the columns when the
  record list is empty (`pd.DataFrame([])` has no columns), so a subsequent
  column access or `groupby` raises `KeyError(column)`; this is modelled by
  `Except PdError`, with `PdError.keyError` naming the first column accessed;
- `df.groupby(k)` iterates groups by ascending key (pandas default `sort=True`),
  each group keeping the original row order; `Series.unique()` keeps first
  occurrences in order.
-/

-- Equality of `Except` results is decidable when both components are.
deriving instance DecidableEq for Except

/-- One row of the validated assessment table, with the ten required columns of
`DataProcessor._validate_data`. -/
structure Record where
  groupNames : String
  entityName : String
  capabilityName : String
  templateName : String
  assessmentDate : String
  assessmentNumber : Int
  rating : Rat
  notes : Option String
  criteria : String
  criteriaStage : String
deriving Repr, DecidableEq, Inhabited

/-- Errors raised by pandas operations that the embedded code can hit:
`KeyError(column)` from accessing a column absent from a frame. -/
inductive PdError where
  | keyError : String → PdError
deriving Repr, DecidableEq

/-- The required column names of `DataProcessor._validate_data`. -/
def required_columns : List String :=
  ["Group Names", "Entity Name", "Capability Name", "Template Name",
   "Assessment Date", "Assessment Number", "Rating", "Notes",
   "Criteria", "Criteria Stage"]

/-- Embedding of `DataProcessor._validate_data`, which inspects only the
column names of the incoming frame: it collects the required columns that are
absent and raises `ValueError` listing them, in `required_columns` order. -/
def validate_data (columns : List String) : Except String Unit :=
  let missing_columns := required_columns.filter fun col => decide (col ∉ columns)
  if missing_columns.isEmpty then Except.ok ()
  else Except.error ("Missing required columns: " ++ String.intercalate ", " missing_columns)

/-- Embedding of `pandas.Series.unique`: distinct values, first occurrence
kept, first-occurrence order preserved. -/
def uniq {α : Type} [DecidableEq α] : List α → List α
  | [] => []
  | x :: xs => x :: (uniq xs).filter fun y => decide (y ≠ x)

/-- Linear order on strings by code-point-lexicographic comparison of their
character lists, matching the comparison Python/pandas uses to sort string
group keys (and agreeing with the standard order on `String`, see
`strOrder_le_iff`); defined through `String.data` so that it evaluates inside
the kernel. -/
def strOrder : LinearOrder String :=
  LinearOrder.lift' String.data (fun a b h => by
    cases a; cases b; exact congrArg String.mk h)

/-- Embedding of `df.groupby(key)` iteration (pandas default `sort=True`):
the distinct keys in ascending order, each paired with the rows bearing that
key in original row order. -/
def groupbyKey {κ : Type} [DecidableEq κ] [LinearOrder κ] (key : Record → κ) (rows : List Record) :
    List (κ × List Record) :=
  ((uniq (rows.map key)).insertionSort (· ≤ ·)).map
    fun k => (k, rows.filter fun r => decide (key r = k))

/-- Mean of a list of ratings, as `groupby(...)['Rating'].mean()` computes it. -/
def mean (l : List Rat) : Rat := l.sum / l.length

/-- Embedding of `DataProcessor.get_entities`: `self.data['Entity Name'].unique().tolist()`. -/
def get_entities (dp : List Record) : List String :=
  uniq (dp.map Record.entityName)

/-- Embedding of `DataProcessor.get_groups`: `self.data['Group Names'].unique().tolist()`. -/
def get_groups (dp : List Record) : List String :=
  uniq (dp.map Record.groupNames)

/-- Embedding of `DataProcessor.get_assessment_data`: filter the frame by
`Group Names == x` or `Entity Name == x` and return the rows as records. -/
def get_assessment_data (dp : List Record) (entity_or_group : String) (isGroup : Bool) :
    List Record :=
  if isGroup then dp.filter fun r => decide (r.groupNames = entity_or_group)
  else dp.filter fun r => decide (r.entityName = entity_or_group)

/-- Embedding of `DataProcessor.get_progress`:
`pd.DataFrame(self.get_assessment_data(...)).groupby('Assessment Number')['Rating'].mean()`.
When the record list is empty the rebuilt frame has no columns and the
`groupby` raises `KeyError('Assessment Number')`. -/
def get_progress (dp : List Record) (entity_or_group : String) (isGroup : Bool) :
    Except PdError (List (Int × Rat)) :=
  let sub := get_assessment_data dp entity_or_group isGroup
  if sub.isEmpty then Except.error (PdError.keyError "Assessment Number")
  else Except.ok ((groupbyKey Record.assessmentNumber sub).map
    fun g => (g.1, mean (g.2.map Record.rating)))

/-- Embedding of `DataProcessor.get_capability_scores`:
`pd.DataFrame(...).groupby('Capability Name')['Rating'].mean().to_dict()`. -/
def get_capability_scores (dp : List Record) (entity_or_group : String) (isGroup : Bool) :
    Except PdError (List (String × Rat)) :=
  let sub := get_assessment_data dp entity_or_group isGroup
  if sub.isEmpty then Except.error (PdError.keyError "Capability Name")
  else Except.ok ((@groupbyKey String instDecidableEqString strOrder Record.capabilityName sub).map
    fun g => (g.1, mean (g.2.map Record.rating)))

/-- Embedding of `DataProcessor.get_criteria_distribution`:
`pd.DataFrame(...)['Criteria Stage'].value_counts().to_dict()`; `value_counts`
orders by descending count, ties kept in first-occurrence order. -/
def get_criteria_distribution (dp : List Record) (entity_or_group : String) (isGroup : Bool) :
    Except PdError (List (String × Nat)) :=
  let sub := get_assessment_data dp entity_or_group isGroup
  if sub.isEmpty then Except.error (PdError.keyError "Criteria Stage")
  else
    let vals := sub.map Record.criteriaStage
    Except.ok (((uniq vals).insertionSort (fun a b => vals.count b ≤ vals.count a)).map
      fun v => (v, vals.count v))

/-- Embedding of `DataProcessor.get_notes`:
`pd.DataFrame(...)['Notes'].dropna().tolist()` — `dropna` removes only `NaN`
(absent) notes, keeping every present string including the empty one. -/
def get_notes (dp : List Record) (entity_or_group : String) (isGroup : Bool) :
    Except PdError (List String) :=
  let sub := get_assessment_data dp entity_or_group isGroup
  if sub.isEmpty then Except.error (PdError.keyError "Notes")
  else Except.ok (sub.filterMap Record.notes)

/-- Embedding of `DataProcessor.get_assessment_dates`:
`pd.DataFrame(...)['Assessment Date'].unique().tolist()`. -/
def get_assessment_dates (dp : List Record) (entity_or_group : String) (isGroup : Bool) :
    Except PdError (List String) :=
  let sub := get_assessment_data dp entity_or_group isGroup
  if sub.isEmpty then Except.error (PdError.keyError "Assessment Date")
  else Except.ok (uniq (sub.map Record.assessmentDate))

/-- Embedding of `DataProcessor.get_template_names`:
`pd.DataFrame(...)['Template Name'].unique().tolist()`. -/
def get_template_names (dp : List Record) (entity_or_group : String) (isGroup : Bool) :
    Except PdError (List String) :=
  let sub := get_assessment_data dp entity_or_group isGroup
  if sub.isEmpty then Except.error (PdError.keyError "Template Name")
  else Except.ok (uniq (sub.map Record.templateName))

/-- Rating emitted as "Most Recent Rating" in `generate_analysis_prompt`:
`group['Rating'].iloc[-1]`, the rating of the last row of the group in
original row order (a group produced by `groupby` is never empty). -/
def lastRating (grp : List Record) : Rat :=
  match grp.getLast? with
  | some r => r.rating
  | none => 0

/-- One capability block emitted by `generate_analysis_prompt`, carrying the
data-dependent fields interpolated into the prompt text. -/
structure CapSection where
  capability : String
  mostRecentRating : Rat
  noteRows : List (Int × String × String)
  criteriaList : List String
  criteriaStages : List String
deriving Repr, DecidableEq, Inhabited

/-- Data-dependent content of the prompt built by `generate_analysis_prompt`:
the header fields and the two capability partitions, in emission order. The
fixed instruction text of the Python f-string carries no data and is elided. -/
structure PromptContent where
  scopeKind : String
  scopeName : String
  headerGroup : String
  templateNames : List String
  assessmentDates : List String
  assessmentNumbers : List Int
  totalAssessments : Nat
  withNotes : List CapSection
  withoutNotes : List CapSection
deriving Repr, DecidableEq, Inhabited

/-- The "Capabilities with notes" loop of `generate_analysis_prompt`: for each
`capability, group` of `groupby('Capability Name')`, keep the group when
`group[...].dropna(subset=['Notes'])` is non-empty, emitting the capability,
`group['Rating'].iloc[-1]`, the non-null note rows in row order, and the
distinct criteria and criteria stages. -/
def withNotesSections (sub : List Record) : List CapSection :=
  (@groupbyKey String instDecidableEqString strOrder Record.capabilityName sub).filterMap fun g =>
    if (g.2.filter fun r => r.notes.isSome).isEmpty then none
    else some
      { capability := g.1
        mostRecentRating := lastRating g.2
        noteRows := (g.2.filter fun r => r.notes.isSome).map
          fun r => (r.assessmentNumber, r.assessmentDate, r.notes.getD "")
        criteriaList := uniq (g.2.map Record.criteria)
        criteriaStages := uniq (g.2.map Record.criteriaStage) }

/-- The "Capabilities without notes" loop of `generate_analysis_prompt`: keep
the groups with `group['Notes'].isna().all()`, emitting capability,
`group['Rating'].iloc[-1]`, and the distinct criteria and criteria stages. -/
def withoutNotesSections (sub : List Record) : List CapSection :=
  (@groupbyKey String instDecidableEqString strOrder Record.capabilityName sub).filterMap fun g =>
    if g.2.all fun r => r.notes.isNone then
      some
        { capability := g.1
          mostRecentRating := lastRating g.2
          noteRows := []
          criteriaList := uniq (g.2.map Record.criteria)
          criteriaStages := uniq (g.2.map Record.criteriaStage) }
    else none

/-- Embedding of `DataProcessor.generate_analysis_prompt`: filter by entity or
group (`is_group = (group_or_entity == "Group")`), then interpolate the header
(`assessment_data['Group Names'].iloc[0]`, distinct template names, dates and
assessment numbers) and the two capability partitions. When the filtered
subset is empty, `pd.DataFrame([])` has no columns, so the very first access
`assessment_data['Group Names']` raises `KeyError('Group Names')`. -/
def generate_analysis_prompt (dp : List Record) (group_or_entity : String) (name : String) :
    Except PdError PromptContent :=
  let sub := get_assessment_data dp name (group_or_entity == "Group")
  match sub.head? with
  | none => Except.error (PdError.keyError "Group Names")
  | some first =>
    Except.ok
      { scopeKind := group_or_entity
        scopeName := name
        headerGroup := first.groupNames
        templateNames := uniq (sub.map Record.templateName)
        assessmentDates := uniq (sub.map Record.assessmentDate)
        assessmentNumbers := uniq (sub.map Record.assessmentNumber)
        totalAssessments := (uniq (sub.map Record.assessmentNumber)).length
        withNotes := withNotesSections sub
        withoutNotes := withoutNotesSections sub }

/-- Record constructor for the concrete collections used in scenarios, fixing
the fields that the scenarios leave constant. -/
def mkRecord (g e c : String) (n : Int) (q : Rat) (note : Option String) : Record :=
  { groupNames := g, entityName := e, capabilityName := c, templateName := "Template1",
    assessmentDate := "2023-01-01", assessmentNumber := n, rating := q, notes := note,
    criteria := "Criteria1", criteriaStage := "Stage1" }

/-- Scenario A collection: two entities, one record each, ratings 4.0 and 3.5. -/
def dpA : List Record :=
  [mkRecord "Group1" "Entity1" "Capability1" 1 4 (some "Note1"),
   mkRecord "Group2" "Entity2" "Capability2" 2 (7/2) (some "Note2")]

/-- Collection whose capability names occur in the order "B", "A": used to
compare emission order with first-occurrence order. -/
def dpOrd : List Record :=
  [mkRecord "G1" "E1" "B" 1 2 (some "note b"),
   mkRecord "G1" "E1" "A" 1 3 (some "note a")]

/-- Collection with a single record whose note is the empty string (present
but empty): distinguishes non-null from non-empty note handling. -/
def dpEmptyNote : List Record :=
  [mkRecord "G1" "E1" "Cap1" 1 4 (some "")]

/-- Scenario F collection: one capability with two rows, the first with a note
and the second without; ratings 2 then 3. -/
def dpF : List Record :=
  [mkRecord "G1" "E1" "Cap1" 1 2 (some "first note"),
   mkRecord "G1" "E1" "Cap1" 2 3 none]

/-- Column list of a raw frame that has `Comments` but no `Notes` (scenario C
input, as in `test_validate_data_accepts_comments_instead_of_notes`). -/
def columnsWithComments : List String :=
  ["Group Names", "Entity Name", "Capability Name", "Template Name",
   "Assessment Date", "Assessment Number", "Rating", "Comments",
   "Criteria", "Criteria Stage"]

/-- Column list of a raw frame with neither `Notes` nor `Comments` (scenario D
input, as in `test_validate_data_fails_without_notes_or_comments`). -/
def columnsNoNoteField : List String :=
  ["Group Names", "Entity Name", "Capability Name", "Template Name",
   "Assessment Date", "Assessment Number", "Rating",
   "Criteria", "Criteria Stage"]

/-- The prompt content produced for the out-of-order capability collection
(well defined since the filtered subset is non-empty). -/
def promptOrd : PromptContent :=
  (generate_analysis_prompt dpOrd "Entity" "E1").toOption.getD default

/-- The prompt content produced for the Scenario F collection. -/
def promptF : PromptContent :=
  (generate_analysis_prompt dpF "Entity" "E1").toOption.getD default

/-! General lemmas about the embedded pandas primitives. -/

/-- Membership is unchanged by `uniq`. -/
theorem mem_uniq {α : Type} [DecidableEq α] {a : α} : ∀ {l : List α}, a ∈ uniq l ↔ a ∈ l
  | [] => Iff.rfl
  | x :: xs => by
    simp only [uniq, List.mem_cons, List.mem_filter, decide_eq_true_eq]
    by_cases hax : a = x
    · simp [hax]
    · simp [hax, mem_uniq (l := xs)]

/-- The output of `uniq` has no duplicates. -/
theorem nodup_uniq {α : Type} [DecidableEq α] : ∀ (l : List α), (uniq l).Nodup
  | [] => List.nodup_nil
  | x :: xs => by
    rw [uniq, List.nodup_cons]
    refine ⟨fun hx => ?_, (nodup_uniq xs).filter _⟩
    have hne := (List.mem_filter.mp hx).2
    simp at hne

/-- The output of `uniq` lists values in order of their first occurrence:
later entries have strictly larger first-occurrence index. -/
theorem pairwise_indexOf_uniq {α : Type} [DecidableEq α] :
    ∀ (l : List α), (uniq l).Pairwise fun a b => l.indexOf a < l.indexOf b
  | [] => List.Pairwise.nil
  | x :: xs => by
    rw [uniq, List.pairwise_cons]
    constructor
    · intro b hb
      rcases List.mem_filter.mp hb with ⟨-, hne⟩
      have hbx : b ≠ x := by simpa using hne
      rw [List.indexOf_cons_self, List.indexOf_cons_ne _ (by simpa using (Ne.symm hbx))]
      exact Nat.succ_pos _
    · have htail := (pairwise_indexOf_uniq xs).filter (fun y => decide (y ≠ x))
      refine htail.imp_of_mem ?_
      intro a b ha hb hlt
      have hax : a ≠ x := by simpa using (List.mem_filter.mp ha).2
      have hbx : b ≠ x := by simpa using (List.mem_filter.mp hb).2
      rw [List.indexOf_cons_ne _ (by simpa using (Ne.symm hax)),
        List.indexOf_cons_ne _ (by simpa using (Ne.symm hbx))]
      exact Nat.succ_lt_succ hlt

/-- The keys of `groupbyKey` are the sorted distinct keys of the rows. -/
theorem groupbyKey_keys {κ : Type} [DecidableEq κ] [lo : LinearOrder κ] (key : Record → κ)
    (rows : List Record) :
    (groupbyKey key rows).map Prod.fst = (uniq (rows.map key)).insertionSort (· ≤ ·) := by
  simp only [groupbyKey, List.map_map]
  exact List.map_id _

/-- Characterization of the groups produced by `groupbyKey`. -/
theorem mem_groupbyKey {κ : Type} [DecidableEq κ] [lo : LinearOrder κ] {key : Record → κ}
    {rows : List Record}
    {k : κ} {g : List Record} :
    (k, g) ∈ groupbyKey key rows ↔
      k ∈ rows.map key ∧ g = rows.filter fun r => decide (key r = k) := by
  constructor
  · intro h
    rcases List.mem_map.mp h with ⟨k', hk', hEq⟩
    obtain ⟨rfl, rfl⟩ : k' = k ∧ (rows.filter fun r => decide (key r = k')) = g := by
      constructor
      · exact congrArg Prod.fst hEq
      · exact congrArg Prod.snd hEq
    refine ⟨?_, rfl⟩
    exact mem_uniq.mp ((List.perm_insertionSort _ _).mem_iff.mp hk')
  · rintro ⟨hk, rfl⟩
    refine List.mem_map.mpr ⟨k, ?_, rfl⟩
    exact (List.perm_insertionSort _ _).mem_iff.mpr (mem_uniq.mpr hk)

/-- The key list of `groupbyKey` is strictly sorted in the given order. -/
theorem groupbyKey_keys_sorted {κ : Type} [DecidableEq κ] [lo : LinearOrder κ] (key : Record → κ)
    (rows : List Record) :
    ((groupbyKey key rows).map Prod.fst).Pairwise fun a b => a < b := by
  rw [groupbyKey_keys]
  have hsorted : ((uniq (rows.map key)).insertionSort (· ≤ ·)).Sorted (· ≤ ·) :=
    List.sorted_insertionSort _ _
  have hnodup : ((uniq (rows.map key)).insertionSort (· ≤ ·)).Nodup :=
    ((List.perm_insertionSort _ _).nodup_iff).mpr (nodup_uniq _)
  exact (hsorted.and hnodup).imp fun h => lt_of_le_of_ne h.1 h.2

/-- The distinct keys of `groupbyKey` are exactly the keys present in the rows. -/
theorem mem_groupbyKey_keys {κ : Type} [DecidableEq κ] [lo : LinearOrder κ] {key : Record → κ}
    {rows : List Record} {k : κ} :
    k ∈ (groupbyKey key rows).map Prod.fst ↔ k ∈ rows.map key := by
  rw [groupbyKey_keys]
  exact (List.perm_insertionSort _ _).mem_iff.trans mem_uniq

/-- The lifted string order agrees with the standard order on `String` (≤). -/
theorem strOrder_le_iff (a b : String) : strOrder.le a b ↔ a ≤ b := by
  rw [String.le_iff_toList_le]
  exact Iff.rfl

/-- The lifted string order agrees with the standard order on `String` (<). -/
theorem strOrder_lt_iff (a b : String) : strOrder.lt a b ↔ a < b := by
  rw [String.lt_iff_toList_lt]
  exact Iff.rfl

/-- Projecting a `filterMap` result is a sublist of projecting the source,
whenever the partial function preserves the projection. -/
theorem map_filterMap_sublist {α β γ : Type} (f : α → Option β) (proj : β → γ) (key : α → γ)
    (h : ∀ a b, f a = some b → proj b = key a) :
    ∀ l : List α, ((l.filterMap f).map proj).Sublist (l.map key)
  | [] => List.Sublist.refl _
  | a :: l => by
    rw [List.filterMap_cons, List.map_cons]
    cases hfa : f a with
    | none => exact (map_filterMap_sublist f proj key h l).cons _
    | some b =>
      rw [List.map_cons, h a b hfa]
      exact (map_filterMap_sublist f proj key h l).cons₂ _

/-- A `filterMap` by the note field equals filtering note-bearing rows and
projecting their note values. -/
theorem filterMap_notes : ∀ sub : List Record,
    sub.filterMap Record.notes
      = (sub.filter fun r => r.notes.isSome).map fun r => r.notes.getD ""
  | [] => rfl
  | r :: sub => by
    rw [List.filterMap_cons, List.filter_cons]
    cases hn : r.notes with
    | none => simpa [hn] using filterMap_notes sub
    | some s => simpa [hn] using filterMap_notes sub

/-- Occurrence count in a filtered list. -/
theorem count_filter_eq {α : Type} [DecidableEq α] (p : α → Bool) (a : α) :
    ∀ l : List α, (l.filter p).count a = if p a then l.count a else 0
  | [] => by cases hpa : p a <;> simp [hpa]
  | x :: l => by
    rw [List.filter_cons]
    by_cases hxa : x = a
    · subst hxa
      cases hpa : p x <;> simp [hpa, List.count_cons_self, count_filter_eq p x l]
    · cases hpx : p x <;>
        simp [hpx, List.count_cons_of_ne (Ne.symm hxa), count_filter_eq p a l,
          List.count_cons, hxa]

/-! Claim theorems, with further supporting lemmas interspersed. -/

/-- C2 (code evaluated at the failing input): the validator of
`DataProcessor._validate_data` does not implement the `Comments` alias. On a
raw frame carrying `Comments` together with the nine other required columns,
validation fails with the generic missing-columns `ValueError` naming `Notes`,
instead of succeeding by renaming `Comments` to `Notes` as the repository's
own test `test_validate_data_accepts_comments_instead_of_notes` and the spec
(Scenario C) require. -/
theorem comments_alias_is_rejected :
    "Comments" ∈ columnsWithComments ∧ "Notes" ∉ columnsWithComments ∧
    validate_data columnsWithComments = Except.error "Missing required columns: Notes" :=
  ⟨by decide, by decide, by decide⟩

/-- C3 (code evaluated at the failing input): on a raw frame with neither
`Notes` nor `Comments`, `DataProcessor._validate_data` raises the generic
missing-columns `ValueError` naming only `Notes`; there is no distinct error
naming both candidate note-field names, contrary to the spec (Scenario D) and
the repository's own test `test_validate_data_fails_without_notes_or_comments`,
which expects a message containing both names. -/
theorem missing_note_field_generic_error :
    "Notes" ∉ columnsNoNoteField ∧ "Comments" ∉ columnsNoNoteField ∧
    validate_data columnsNoNoteField = Except.error "Missing required columns: Notes" :=
  ⟨by decide, by decide, by decide⟩

/-- C8: `get_entities` and `get_groups` return each distinct entity
(respectively group) name exactly once (`Nodup`, membership equivalence), in
first-occurrence order: along the returned list, the index of the first
occurrence in the source column strictly increases. -/
theorem get_entities_groups_spec (dp : List Record) :
    ((get_entities dp).Nodup ∧
      (∀ a, a ∈ get_entities dp ↔ a ∈ dp.map Record.entityName) ∧
      (get_entities dp).Pairwise (fun a b =>
        (dp.map Record.entityName).indexOf a < (dp.map Record.entityName).indexOf b)) ∧
    ((get_groups dp).Nodup ∧
      (∀ a, a ∈ get_groups dp ↔ a ∈ dp.map Record.groupNames) ∧
      (get_groups dp).Pairwise (fun a b =>
        (dp.map Record.groupNames).indexOf a < (dp.map Record.groupNames).indexOf b)) :=
  ⟨⟨nodup_uniq _, fun _ => mem_uniq, pairwise_indexOf_uniq _⟩,
   ⟨nodup_uniq _, fun _ => mem_uniq, pairwise_indexOf_uniq _⟩⟩

/-- C9 counterexample: on a record whose note is present but equal to the
empty string, `get_notes` keeps the empty string (pandas `dropna` removes only
`NaN`), so the claim that empty-string notes are excluded fails. -/
theorem get_notes_empty_string_counterexample :
    dpEmptyNote.map Record.notes = [some ""] ∧
    get_notes dpEmptyNote "E1" false = Except.ok [""] ∧
    get_notes dpEmptyNote "E1" false ≠ Except.ok [] :=
  ⟨by decide, by decide, by decide⟩

/-- C9 amended: for a non-empty filtered subset, `get_notes` returns exactly
the note values of the rows whose note is present (non-null) — including
present-but-empty strings — in the row order of the filtered subset. -/
theorem get_notes_spec (dp : List Record) (v : String) (ig : Bool) (l : List String)
    (h : get_notes dp v ig = Except.ok l) :
    l = ((get_assessment_data dp v ig).filter fun r => r.notes.isSome).map
      fun r => r.notes.getD "" := by
  rw [get_notes] at h
  by_cases hsub : (get_assessment_data dp v ig).isEmpty
  · rw [if_pos hsub] at h
    exact absurd h (by simp)
  · rw [if_neg hsub] at h
    injection h with h
    rw [← h, filterMap_notes]

/-- C9 witness: the amended statement applied to the concrete empty-string
collection. -/
theorem get_notes_spec_witness :
    get_notes dpEmptyNote "E1" false = Except.ok [""] ∧
    [""] = ((get_assessment_data dpEmptyNote "E1" false).filter fun r => r.notes.isSome).map
      fun r => r.notes.getD "" :=
  ⟨by decide, get_notes_spec dpEmptyNote "E1" false [""] (by decide)⟩

/-- C10: `get_assessment_data` returns exactly the records whose entity name
(entity scope) or group name (group scope) equals the requested value, keeping
their relative order from the source collection (sublist), with the exact
multiplicities of the source. -/
theorem get_assessment_data_spec (dp : List Record) (v : String) (ig : Bool) :
    (get_assessment_data dp v ig).Sublist dp ∧
    (∀ r : Record, r ∈ get_assessment_data dp v ig ↔
      r ∈ dp ∧ (if ig then r.groupNames else r.entityName) = v) ∧
    (∀ r : Record, (get_assessment_data dp v ig).count r
      = if (if ig then r.groupNames else r.entityName) = v then dp.count r else 0) := by
  refine ⟨?_, ?_, ?_⟩
  · cases ig <;> exact List.filter_sublist _
  · intro r
    cases ig <;> simp [get_assessment_data]
  · intro r
    cases ig <;>
      · rw [get_assessment_data]
        simp only [Bool.false_eq_true, if_false, if_true, count_filter_eq]
        split <;> rename_i hcond <;> simp_all

/-- C1 counterexample: for an entity name matching no record,
`get_assessment_data` does return an empty list, but `get_progress` (like the
other frame-rebuilding views) raises a `KeyError` instead of returning an
empty result, because `pd.DataFrame([])` has no columns. This refutes the
claim that every Query Engine view returns an empty result with no
exception. -/
theorem unknownScope_views_counterexample :
    get_assessment_data dpA "Nobody" false = [] ∧
    get_progress dpA "Nobody" false = Except.error (PdError.keyError "Assessment Number") ∧
    get_notes dpA "Nobody" false = Except.error (PdError.keyError "Notes") :=
  ⟨by decide, by decide, by decide⟩

/-- C1 amended: for a scope value matching no record, `get_assessment_data`
returns the empty list without error, while the six views that rebuild a frame
from the empty record list (`get_progress`, `get_capability_scores`,
`get_criteria_distribution`, `get_notes`, `get_assessment_dates`,
`get_template_names`) each raise a `KeyError` naming the first column they
access, since the rebuilt empty frame has no columns. -/
theorem unknownScope_views_behavior (dp : List Record) (v : String) (ig : Bool)
    (h : ∀ r ∈ dp, (if ig then r.groupNames else r.entityName) ≠ v) :
    get_assessment_data dp v ig = [] ∧
    get_progress dp v ig = Except.error (PdError.keyError "Assessment Number") ∧
    get_capability_scores dp v ig = Except.error (PdError.keyError "Capability Name") ∧
    get_criteria_distribution dp v ig = Except.error (PdError.keyError "Criteria Stage") ∧
    get_notes dp v ig = Except.error (PdError.keyError "Notes") ∧
    get_assessment_dates dp v ig = Except.error (PdError.keyError "Assessment Date") ∧
    get_template_names dp v ig = Except.error (PdError.keyError "Template Name") := by
  have hsub : get_assessment_data dp v ig = [] := by
    cases ig <;>
      · rw [get_assessment_data]
        simp only [Bool.false_eq_true, if_false, if_true]
        rw [List.filter_eq_nil_iff]
        intro r hr
        simpa using h r hr
  refine ⟨hsub, ?_, ?_, ?_, ?_, ?_, ?_⟩ <;>
    simp [get_progress, get_capability_scores, get_criteria_distribution, get_notes,
      get_assessment_dates, get_template_names, hsub]

/-- C1 witness: the amended statement applied to the Scenario A collection and
the unknown entity name. -/
theorem unknownScope_views_behavior_witness :
    get_assessment_data dpA "NoSuchEntity" false = [] ∧
    get_progress dpA "NoSuchEntity" false = Except.error (PdError.keyError "Assessment Number") ∧
    get_capability_scores dpA "NoSuchEntity" false
      = Except.error (PdError.keyError "Capability Name") ∧
    get_criteria_distribution dpA "NoSuchEntity" false
      = Except.error (PdError.keyError "Criteria Stage") ∧
    get_notes dpA "NoSuchEntity" false = Except.error (PdError.keyError "Notes") ∧
    get_assessment_dates dpA "NoSuchEntity" false
      = Except.error (PdError.keyError "Assessment Date") ∧
    get_template_names dpA "NoSuchEntity" false
      = Except.error (PdError.keyError "Template Name") :=
  unknownScope_views_behavior dpA "NoSuchEntity" false (by decide)

/-- C5 counterexample: for an empty filtered subset, `generate_analysis_prompt`
fails with the generic pandas `KeyError('Group Names')` — the same kind of
error the Query Engine views raise on an unknown scope — not with a
distinguished `EmptyScopeError` (no such error exists in the code), and the
Query Engine views do not degrade gracefully either. -/
theorem empty_scope_prompt_counterexample :
    generate_analysis_prompt dpA "Entity" "Nobody"
      = Except.error (PdError.keyError "Group Names") ∧
    get_assessment_dates dpA "Nobody" false = Except.error (PdError.keyError "Assessment Date") :=
  ⟨by decide, by decide⟩

/-- C5 amended: whenever the filtered subset for the requested scope is empty,
`generate_analysis_prompt` fails with the generic `KeyError('Group Names')`
raised by the header's first column access on the column-less empty frame
(rather than returning a prompt, and not with a distinguished error). -/
theorem empty_scope_prompt_raises_keyerror (dp : List Record) (goe name : String)
    (h : get_assessment_data dp name (goe == "Group") = []) :
    generate_analysis_prompt dp goe name = Except.error (PdError.keyError "Group Names") := by
  rw [generate_analysis_prompt, h]
  rfl

/-- C5 witness: the amended statement applied to the Scenario A collection and
an unknown entity name. -/
theorem empty_scope_prompt_raises_keyerror_witness :
    generate_analysis_prompt dpA "Entity" "NoSuchEntity"
      = Except.error (PdError.keyError "Group Names") :=
  empty_scope_prompt_raises_keyerror dpA "Entity" "NoSuchEntity" (by decide)

/-- C7: for a non-empty filtered subset, `get_progress` returns one entry per
distinct assessment number of the subset (membership equivalence together with
strictly increasing keys), ordered by assessment number ascending, and each
entry's value is the mean of the ratings of the subset rows bearing that
assessment number. -/
theorem get_progress_spec (dp : List Record) (v : String) (ig : Bool) (l : List (Int × Rat))
    (h : get_progress dp v ig = Except.ok l) :
    (l.map Prod.fst).Pairwise (· < ·) ∧
    (∀ n : Int, n ∈ l.map Prod.fst ↔
      ∃ r ∈ get_assessment_data dp v ig, r.assessmentNumber = n) ∧
    (∀ n : Int, ∀ q : Rat, (n, q) ∈ l →
      q = mean (((get_assessment_data dp v ig).filter
        fun r => decide (r.assessmentNumber = n)).map Record.rating)) := by
  rw [get_progress] at h
  by_cases hsub : (get_assessment_data dp v ig).isEmpty
  · rw [if_pos hsub] at h
    exact absurd h (by simp)
  · rw [if_neg hsub] at h
    injection h with h
    subst h
    have hfst : ((groupbyKey Record.assessmentNumber (get_assessment_data dp v ig)).map
        (fun g => (g.1, mean (g.2.map Record.rating)))).map Prod.fst
        = (groupbyKey Record.assessmentNumber (get_assessment_data dp v ig)).map Prod.fst := by
      rw [List.map_map]
      rfl
    refine ⟨?_, ?_, ?_⟩
    · rw [hfst]
      exact groupbyKey_keys_sorted Record.assessmentNumber _
    · intro n
      rw [hfst, mem_groupbyKey_keys]
      simp [List.mem_map]
    · intro n q hmem
      obtain ⟨g, hg, hEq⟩ := List.mem_map.mp hmem
      obtain ⟨k, grp⟩ := g
      simp only [Prod.mk.injEq] at hEq
      obtain ⟨hkmem, hgrp⟩ := mem_groupbyKey.mp hg
      rcases hEq with ⟨rfl, hq⟩
      rw [← hq, hgrp]

/-- C7 witness: Scenario A — a collection with two entities, one record each
with ratings 4.0 and 3.5; `get_progress` for the first entity returns the
single entry mapping assessment number 1 to 4.0, and the theorem's conclusions
hold there. -/
theorem get_progress_spec_witness :
    get_progress dpA "Entity1" false = Except.ok [(1, 4)] ∧
    ([((1 : Int), (4 : Rat))].map Prod.fst).Pairwise (· < ·) ∧
    (4 : Rat) = mean (((get_assessment_data dpA "Entity1" false).filter
      fun r => decide (r.assessmentNumber = 1)).map Record.rating) := by
  have hok : get_progress dpA "Entity1" false = Except.ok [(1, 4)] := by
    simp [get_progress, get_assessment_data, groupbyKey, uniq, dpA, mkRecord, mean,
      List.insertionSort, List.orderedInsert]
  have happ := get_progress_spec dpA "Entity1" false [(1, 4)] hok
  exact ⟨hok, happ.1, happ.2.2 1 4 (by decide)⟩

/-- The capability names of the with-notes sections are a sublist of the
sorted group keys. -/
theorem withNotesSections_names_sublist (sub : List Record) :
    ((withNotesSections sub).map CapSection.capability).Sublist
      ((@groupbyKey String instDecidableEqString strOrder Record.capabilityName sub).map Prod.fst) := by
  rw [withNotesSections]
  apply map_filterMap_sublist
  intro g s hgs
  by_cases hn : (g.2.filter fun r => r.notes.isSome).isEmpty
  · rw [if_pos hn] at hgs
    cases hgs
  · rw [if_neg hn] at hgs
    cases hgs
    rfl

/-- The capability names of the without-notes sections are a sublist of the
sorted group keys. -/
theorem withoutNotesSections_names_sublist (sub : List Record) :
    ((withoutNotesSections sub).map CapSection.capability).Sublist
      ((@groupbyKey String instDecidableEqString strOrder Record.capabilityName sub).map Prod.fst) := by
  rw [withoutNotesSections]
  apply map_filterMap_sublist
  intro g s hgs
  by_cases hn : g.2.all fun r => r.notes.isNone
  · rw [if_pos hn] at hgs
    cases hgs
    rfl
  · rw [if_neg hn] at hgs
    cases hgs

/-- The with-notes sections list capabilities in strictly increasing
lexicographic order of the standard order on `String`. -/
theorem withNotesSections_names_sorted (sub : List Record) :
    ((withNotesSections sub).map CapSection.capability).Pairwise (· < ·) := by
  have hkeys := @groupbyKey_keys_sorted String instDecidableEqString strOrder Record.capabilityName sub
  have hp := hkeys.sublist (withNotesSections_names_sublist sub)
  exact hp.imp fun hab => (strOrder_lt_iff _ _).mp hab

/-- The without-notes sections list capabilities in strictly increasing
lexicographic order of the standard order on `String`. -/
theorem withoutNotesSections_names_sorted (sub : List Record) :
    ((withoutNotesSections sub).map CapSection.capability).Pairwise (· < ·) := by
  have hkeys := @groupbyKey_keys_sorted String instDecidableEqString strOrder Record.capabilityName sub
  have hp := hkeys.sublist (withoutNotesSections_names_sublist sub)
  exact hp.imp fun hab => (strOrder_lt_iff _ _).mp hab

/-- A successful `generate_analysis_prompt` carries exactly the two section
lists computed from the filtered subset. -/
theorem generate_ok_fields (dp : List Record) (goe name : String) (p : PromptContent)
    (h : generate_analysis_prompt dp goe name = Except.ok p) :
    p.withNotes = withNotesSections (get_assessment_data dp name (goe == "Group")) ∧
    p.withoutNotes = withoutNotesSections (get_assessment_data dp name (goe == "Group")) := by
  rw [generate_analysis_prompt] at h
  cases hh : (get_assessment_data dp name (goe == "Group")).head? with
  | none =>
    rw [hh] at h
    cases h
  | some first =>
    rw [hh] at h
    injection h with h
    rw [← h]
    exact ⟨rfl, rfl⟩

/-- `mem_groupbyKey` specialized to string keys under `strOrder`, as used by
the capability grouping of the synthesizer. -/
theorem mem_groupbyKeyStr {key : Record → String} {rows : List Record} {k : String}
    {g : List Record} :
    (k, g) ∈ @groupbyKey String instDecidableEqString strOrder key rows ↔
      k ∈ rows.map key ∧ g = rows.filter fun r => decide (key r = k) :=
  @mem_groupbyKey String instDecidableEqString strOrder key rows k g

/-- A capability appears among the with-notes sections exactly when some row
of the subset bears that capability together with a present (non-null) note. -/
theorem mem_withNotesSections_names (sub : List Record) (c : String) :
    c ∈ (withNotesSections sub).map CapSection.capability ↔
      ∃ r ∈ sub, r.capabilityName = c ∧ r.notes.isSome := by
  constructor
  · intro hc
    obtain ⟨s, hs, hsc⟩ := List.mem_map.mp hc
    rw [withNotesSections] at hs
    obtain ⟨g, hg, hgs⟩ := List.mem_filterMap.mp hs
    obtain ⟨k, grp⟩ := g
    obtain ⟨hkmem, hgrp⟩ := mem_groupbyKeyStr.mp hg
    by_cases hn : (grp.filter fun r => r.notes.isSome).isEmpty
    · rw [if_pos hn] at hgs
      cases hgs
    · rw [if_neg hn] at hgs
      injection hgs with hgs
      have hck : c = k := by rw [← hsc, ← hgs]
      have hne : (grp.filter fun r => r.notes.isSome) ≠ [] := by
        intro hnil
        rw [hnil] at hn
        exact hn rfl
      obtain ⟨r, hrmem⟩ := List.exists_mem_of_ne_nil _ hne
      obtain ⟨hrgrp, hrsome⟩ := List.mem_filter.mp hrmem
      rw [hgrp] at hrgrp
      obtain ⟨hrsub, hrk⟩ := List.mem_filter.mp hrgrp
      refine ⟨r, hrsub, ?_, hrsome⟩
      rw [hck]
      exact of_decide_eq_true hrk
  · rintro ⟨r, hr, hrc, hrn⟩
    have hkmem : c ∈ sub.map Record.capabilityName := List.mem_map.mpr ⟨r, hr, hrc⟩
    have hg : (c, sub.filter fun x => decide (x.capabilityName = c))
        ∈ @groupbyKey String instDecidableEqString strOrder Record.capabilityName sub :=
      mem_groupbyKeyStr.mpr ⟨hkmem, rfl⟩
    have hrfilter : r ∈ sub.filter fun x => decide (x.capabilityName = c) :=
      List.mem_filter.mpr ⟨hr, by simp [hrc]⟩
    have hrnotes : r ∈ (sub.filter fun x => decide (x.capabilityName = c)).filter
        fun x => x.notes.isSome :=
      List.mem_filter.mpr ⟨hrfilter, hrn⟩
    have hne : ¬ ((sub.filter fun x => decide (x.capabilityName = c)).filter
        fun x => x.notes.isSome).isEmpty = true := by
      intro hEmpty
      rw [List.isEmpty_iff] at hEmpty
      rw [hEmpty] at hrnotes
      cases hrnotes
    apply List.mem_map.mpr
    refine ⟨{ capability := c
              mostRecentRating := lastRating (sub.filter fun x => decide (x.capabilityName = c))
              noteRows := ((sub.filter fun x => decide (x.capabilityName = c)).filter
                fun x => x.notes.isSome).map
                  fun x => (x.assessmentNumber, x.assessmentDate, x.notes.getD "")
              criteriaList := uniq ((sub.filter fun x => decide (x.capabilityName = c)).map
                Record.criteria)
              criteriaStages := uniq ((sub.filter fun x => decide (x.capabilityName = c)).map
                Record.criteriaStage) }, ?_, rfl⟩
    rw [withNotesSections]
    apply List.mem_filterMap.mpr
    refine ⟨(c, sub.filter fun x => decide (x.capabilityName = c)), hg, ?_⟩
    dsimp only
    rw [if_neg hne]

/-- A capability appears among the without-notes sections exactly when some
row of the subset bears it and every such row's note is absent (null). -/
theorem mem_withoutNotesSections_names (sub : List Record) (c : String) :
    c ∈ (withoutNotesSections sub).map CapSection.capability ↔
      (∃ r ∈ sub, r.capabilityName = c) ∧
      ∀ r ∈ sub, r.capabilityName = c → r.notes = none := by
  constructor
  · intro hc
    obtain ⟨s, hs, hsc⟩ := List.mem_map.mp hc
    rw [withoutNotesSections] at hs
    obtain ⟨g, hg, hgs⟩ := List.mem_filterMap.mp hs
    obtain ⟨k, grp⟩ := g
    obtain ⟨hkmem, hgrp⟩ := mem_groupbyKeyStr.mp hg
    by_cases hn : grp.all fun r => r.notes.isNone
    · rw [if_pos hn] at hgs
      injection hgs with hgs
      have hck : c = k := by rw [← hsc, ← hgs]
      subst hck
      constructor
      · obtain ⟨r, hrmem, hrc⟩ := List.mem_map.mp hkmem
        exact ⟨r, hrmem, hrc⟩
      · intro r hrsub hrc
        have hrgrp : r ∈ grp := by
          rw [hgrp]
          exact List.mem_filter.mpr ⟨hrsub, by simp [hrc]⟩
        have := List.all_eq_true.mp hn r hrgrp
        exact Option.isNone_iff_eq_none.mp this
    · rw [if_neg hn] at hgs
      cases hgs
  · rintro ⟨⟨r, hr, hrc⟩, hall⟩
    have hkmem : c ∈ sub.map Record.capabilityName := List.mem_map.mpr ⟨r, hr, hrc⟩
    have hg : (c, sub.filter fun x => decide (x.capabilityName = c))
        ∈ @groupbyKey String instDecidableEqString strOrder Record.capabilityName sub :=
      mem_groupbyKeyStr.mpr ⟨hkmem, rfl⟩
    have hallnone : (sub.filter fun x => decide (x.capabilityName = c)).all
        (fun x => x.notes.isNone) = true := by
      rw [List.all_eq_true]
      intro x hx
      obtain ⟨hxsub, hxc⟩ := List.mem_filter.mp hx
      rw [Option.isNone_iff_eq_none]
      exact hall x hxsub (of_decide_eq_true hxc)
    apply List.mem_map.mpr
    refine ⟨{ capability := c
              mostRecentRating := lastRating (sub.filter fun x => decide (x.capabilityName = c))
              noteRows := []
              criteriaList := uniq ((sub.filter fun x => decide (x.capabilityName = c)).map
                Record.criteria)
              criteriaStages := uniq ((sub.filter fun x => decide (x.capabilityName = c)).map
                Record.criteriaStage) }, ?_, rfl⟩
    rw [withoutNotesSections]
    apply List.mem_filterMap.mpr
    refine ⟨(c, sub.filter fun x => decide (x.capabilityName = c)), hg, ?_⟩
    dsimp only
    rw [if_pos hallnone]

/-- Every with-notes section's emitted most-recent rating is the rating of the
last row (in original row order) of its capability's group. -/
theorem withNotesSections_rating (sub : List Record) (s : CapSection)
    (hs : s ∈ withNotesSections sub) (r : Record)
    (hr : ((sub.filter fun x => decide (x.capabilityName = s.capability)).getLast? = some r)) :
    s.mostRecentRating = r.rating := by
  rw [withNotesSections] at hs
  obtain ⟨g, hg, hgs⟩ := List.mem_filterMap.mp hs
  obtain ⟨k, grp⟩ := g
  obtain ⟨hkmem, hgrp⟩ := mem_groupbyKeyStr.mp hg
  by_cases hn : (grp.filter fun x => x.notes.isSome).isEmpty
  · rw [if_pos hn] at hgs
    cases hgs
  · rw [if_neg hn] at hgs
    injection hgs with hgs
    have hcap : s.capability = k := by rw [← hgs]
    have hrat : s.mostRecentRating = lastRating grp := by rw [← hgs]
    rw [hcap] at hr
    rw [← hgrp] at hr
    rw [hrat, lastRating, hr]

/-- Every without-notes section's emitted most-recent rating is the rating of
the last row (in original row order) of its capability's group. -/
theorem withoutNotesSections_rating (sub : List Record) (s : CapSection)
    (hs : s ∈ withoutNotesSections sub) (r : Record)
    (hr : ((sub.filter fun x => decide (x.capabilityName = s.capability)).getLast? = some r)) :
    s.mostRecentRating = r.rating := by
  rw [withoutNotesSections] at hs
  obtain ⟨g, hg, hgs⟩ := List.mem_filterMap.mp hs
  obtain ⟨k, grp⟩ := g
  obtain ⟨hkmem, hgrp⟩ := mem_groupbyKeyStr.mp hg
  by_cases hn : grp.all fun x => x.notes.isNone
  · rw [if_pos hn] at hgs
    injection hgs with hgs
    have hcap : s.capability = k := by rw [← hgs]
    have hrat : s.mostRecentRating = lastRating grp := by rw [← hgs]
    rw [hcap] at hr
    rw [← hgrp] at hr
    rw [hrat, lastRating, hr]
  · rw [if_neg hn] at hgs
    cases hgs

/-- C4 counterexample: with capability names first occurring in the order
"B", "A" (both with notes), the synthesized prompt enumerates the with-notes
capability sections as "A", "B" — sorted order (pandas `groupby` default
`sort=True`) — not the first-occurrence order "B", "A" the claim states. -/
theorem capability_order_counterexample :
    (generate_analysis_prompt dpOrd "Entity" "E1").map
        (fun p => (p.withNotes.map CapSection.capability,
                   p.withoutNotes.map CapSection.capability))
      = Except.ok (["A", "B"], []) ∧
    uniq ((get_assessment_data dpOrd "E1" false).map Record.capabilityName) = ["B", "A"] :=
  ⟨by decide, by decide⟩

/-- C4 amended: in the synthesized prompt, both the with-notes and the
without-notes partitions enumerate capability names in sorted ascending
(code-point lexicographic) order of `capability_name`, the order `groupby`
produces with its default `sort=True` — not first-occurrence order. -/
theorem capability_sections_sorted (dp : List Record) (goe name : String) (p : PromptContent)
    (h : generate_analysis_prompt dp goe name = Except.ok p) :
    (p.withNotes.map CapSection.capability).Pairwise (· < ·) ∧
    (p.withoutNotes.map CapSection.capability).Pairwise (· < ·) := by
  obtain ⟨hw, hwo⟩ := generate_ok_fields dp goe name p h
  rw [hw, hwo]
  exact ⟨withNotesSections_names_sorted _, withoutNotesSections_names_sorted _⟩

/-- C4 witness: the amended statement applied to the out-of-order collection,
whose prompt enumerates "A" before "B". -/
theorem capability_sections_sorted_witness :
    generate_analysis_prompt dpOrd "Entity" "E1" = Except.ok promptOrd ∧
    promptOrd.withNotes.map CapSection.capability = ["A", "B"] ∧
    (promptOrd.withNotes.map CapSection.capability).Pairwise (· < ·) ∧
    (promptOrd.withoutNotes.map CapSection.capability).Pairwise (· < ·) := by
  have hok : generate_analysis_prompt dpOrd "Entity" "E1" = Except.ok promptOrd := by decide
  have happ := capability_sections_sorted dpOrd "Entity" "E1" promptOrd hok
  exact ⟨hok, by decide, happ.1, happ.2⟩

/-- C6 counterexample: a capability whose only record carries a present but
empty note ("") is classified "with notes" by the code (pandas `dropna` keeps
empty strings), refuting the claim that the classification requires a
non-empty note. -/
theorem empty_note_classification_counterexample :
    dpEmptyNote.map Record.notes = [some ""] ∧
    (generate_analysis_prompt dpEmptyNote "Entity" "E1").map
        (fun p => (p.withNotes.map CapSection.capability,
                   p.withoutNotes.map CapSection.capability))
      = Except.ok (["Cap1"], []) :=
  ⟨by decide, by decide⟩

/-- C6 amended: in the synthesized prompt a capability group is classified
"with notes" exactly when at least one of its records has a present (non-null)
note — an empty-string note counts — and "without notes" exactly when every
one of its records' notes is absent; in both partitions the emitted most
recent rating is the rating of the last row of that capability's group in
original row order. -/
theorem capability_partition_spec (dp : List Record) (goe name : String) (p : PromptContent)
    (h : generate_analysis_prompt dp goe name = Except.ok p) :
    (∀ c : String,
      c ∈ p.withNotes.map CapSection.capability ↔
        ∃ r ∈ get_assessment_data dp name (goe == "Group"),
          r.capabilityName = c ∧ r.notes.isSome) ∧
    (∀ c : String,
      c ∈ p.withoutNotes.map CapSection.capability ↔
        (∃ r ∈ get_assessment_data dp name (goe == "Group"), r.capabilityName = c) ∧
        ∀ r ∈ get_assessment_data dp name (goe == "Group"),
          r.capabilityName = c → r.notes = none) ∧
    (∀ s ∈ p.withNotes, ∀ r : Record,
      ((get_assessment_data dp name (goe == "Group")).filter
        fun x => decide (x.capabilityName = s.capability)).getLast? = some r →
      s.mostRecentRating = r.rating) ∧
    (∀ s ∈ p.withoutNotes, ∀ r : Record,
      ((get_assessment_data dp name (goe == "Group")).filter
        fun x => decide (x.capabilityName = s.capability)).getLast? = some r →
      s.mostRecentRating = r.rating) := by
  obtain ⟨hw, hwo⟩ := generate_ok_fields dp goe name p h
  rw [hw, hwo]
  exact ⟨fun c => mem_withNotesSections_names _ c,
    fun c => mem_withoutNotesSections_names _ c,
    fun s hs r hr => withNotesSections_rating _ s hs r hr,
    fun s hs r hr => withoutNotesSections_rating _ s hs r hr⟩

/-- C6 witness: Scenario F — one capability with two rows, the first with a
note and the second without: the capability is classified "with notes", and
its emitted most-recent rating is the second (last) row's rating 3, not the
first row's 2. -/
theorem capability_partition_spec_witness :
    generate_analysis_prompt dpF "Entity" "E1" = Except.ok promptF ∧
    "Cap1" ∈ promptF.withNotes.map CapSection.capability ∧
    promptF.withNotes.map (fun s => (s.capability, s.mostRecentRating)) = [("Cap1", 3)] := by
  have hok : generate_analysis_prompt dpF "Entity" "E1" = Except.ok promptF := by decide
  have happ := capability_partition_spec dpF "Entity" "E1" promptF hok
  exact ⟨hok, (happ.1 "Cap1").mpr (by decide), by decide⟩
